import Mathlib

/-!
Shallow embedding of `src/tasks/ubuntu.py` (KeraSTS Ubuntu dialogue task adapter).

Conventions of the embedding:
* numpy scalars are modelled as `ℚ`; an `int32` array cell holds the value
  `wrap32 (truncToZero q)` that `np.array(..., dtype='int32')` would store
  (C-style truncation toward zero, then wrap-around modulo `2^32`);
* a Python list of variable-length sequences is kept as a Lean `List`;
  a dense numpy array is a `List` whose rows all have the same length,
  tagged by its dtype where the dtype is observable;
* fallible numpy operations (in particular broadcasting failures raised by
  `pseqs[i, :trunc.shape[0]] = trunc`) are modelled with `Except String`;
* the graph dictionaries are association lists `List (String × PyVal)` with
  Python-dict update semantics (`dictGet` / `dictSet`);
* collaborator functions of the `pysts` package that are not under `src/`
  (`graph_input_slice`, `graph_input_anssel`) are modelled from the spec and
  marked as such; `keras.preprocessing.sequence.pad_sequences` is modelled
  from its documented contract (`truncating='pre'`, `padding='post'`,
  `dtype='int32'`, empty sequences skipped and left as zero rows);
* `random.shuffle(ids)` is modelled by quantifying over an arbitrary
  permutation of `List.range (N / batch_size)`.
-/

/-- Numpy element dtypes that occur in this module. -/
inductive DType where
  | int32
  | int64
  | float64
  deriving DecidableEq, Repr

/-- Wrap an integer into the `int32` range `[-2^31, 2^31)`, as storing into an
`int32` numpy array does. -/
def wrap32 (x : Int) : Int :=
  (x + 2 ^ 31) % 2 ^ 32 - 2 ^ 31

/-- Wrap an integer into the `int64` range `[-2^63, 2^63)`. -/
def wrap64 (x : Int) : Int :=
  (x + 2 ^ 63) % 2 ^ 64 - 2 ^ 63

/-- C-style conversion of a numeric value to an integer: truncation toward
zero, as `np.array([2.5], dtype='int32')` performs. -/
def truncToZero (q : ℚ) : Int :=
  if 0 ≤ q then ⌊q⌋ else ⌈q⌉

/-- Store a scalar into an array of the given dtype: the value the cell holds
afterwards.  `float64` cells are modelled as holding the rational exactly. -/
def castScalar : DType → ℚ → ℚ
  | .int32, q => (wrap32 (truncToZero q) : Int)
  | .int64, q => (wrap64 (truncToZero q) : Int)
  | .float64, q => q

/-- Cast every entry of a feature vector (`np.array(..., dtype=dt)` row). -/
def castVec (dt : DType) (v : List ℚ) : List ℚ :=
  v.map (castScalar dt)

/-- `True` when the rational is an integer; `np.array` of a plain Python list
infers an integer dtype exactly when all entries are integral. -/
def isIntegral (q : ℚ) : Bool :=
  q.den == 1

/-- Dtype that `np.array` infers for a plain nested Python list of numbers:
`int64` when every value is integral, `float64` otherwise. -/
def inferDType (l : List (List (List ℚ))) : DType :=
  if l.all (fun s => s.all (fun v => v.all isIntegral)) then .int64 else .float64

/-- Python's negative-index slice `seq[-maxlen:]`: the last `maxlen` elements,
except that `seq[-0:]` is the whole list. -/
def pythonTail (maxlen : Nat) (l : List α) : List α :=
  if maxlen = 0 then l else l.drop (l.length - maxlen)

/-- Python's `l[a:b]` for non-negative bounds. -/
def listSlice (a b : Nat) (l : List α) : List α :=
  (l.drop a).take (b - a)

/-- Sequential effectful map: the Python `for` loop that fills an output
array row by row and raises at the first failing row. -/
def exceptMap (f : α → Except String β) : List α → Except String (List β)
  | [] => .ok []
  | a :: l =>
    match f a with
    | .error e => .error e
    | .ok b =>
      match exceptMap f l with
      | .error e => .error e
      | .ok bs => .ok (b :: bs)

/-- One row of `pad_3d_sequence` (`src/tasks/ubuntu.py:57-59`):
`trunc = np.array(seq[-maxlen:], dtype=dtype); pseqs[i, :trunc.shape[0]] = trunc`.
`dense` records whether `seq` is a row of a dense 3-d array (so that an empty
`seq` still carries the feature dimension `(0, nd)`); a plain empty Python
list becomes a shape-`(0,)` array, which numpy cannot broadcast into the
shape-`(0, nd)` destination.  A non-empty `trunc` of `k` rows fits the
destination `pseqs[i, :k]` when `k ≤ maxlen`; when `maxlen = 0` the
destination has `0` rows and broadcasting succeeds only for `k = 1`. -/
def pad3dRow (dense : Bool) (maxlen nd : Nat) (dt : DType) (seq : List (List ℚ)) :
    Except String (List (List ℚ)) :=
  let tail := pythonTail maxlen seq
  if tail.isEmpty then
    if dense || nd = 0 then .ok (List.replicate maxlen (List.replicate nd 0))
    else .error "could not broadcast input array from shape (0,) into shape (0,nd)"
  else if tail.all (fun v => v.length = nd) then
    let trunc := tail.map (castVec dt)
    if trunc.length ≤ maxlen then
      .ok (trunc ++ List.replicate (maxlen - trunc.length) (List.replicate nd 0))
    else if trunc.length = 1 then .ok []
    else .error "could not broadcast input array from shape (k,nd) into shape (0,nd)"
  else .error "setting an array element with a sequence"

/-- `pad_3d_sequence(seqs, maxlen, nd, dtype='int32')` from
`src/tasks/ubuntu.py:55-60`.  `dense` tells whether `seqs` is already a dense
3-d array (its rows then carry the feature dimension even when empty). -/
def pad_3d_sequence (dense : Bool) (seqs : List (List (List ℚ))) (maxlen nd : Nat)
    (dt : DType := .int32) : Except String (List (List (List ℚ))) :=
  exceptMap (pad3dRow dense maxlen nd dt) seqs

/-- One row of `keras.preprocessing.sequence.pad_sequences` with
`truncating='pre'`, `padding='post'`, `dtype='int32'` (external collaborator,
modelled from its documented contract): an empty sequence is skipped, leaving
the zero row; otherwise the last `maxlen` tokens are kept, cast to `int32`,
left-aligned and zero-padded at the end. -/
def padSeqRow (maxlen : Nat) (s : List Int) : Except String (List Int) :=
  if s.isEmpty then .ok (List.replicate maxlen 0)
  else
    let trunc := (pythonTail maxlen s).map wrap32
    if trunc.length ≤ maxlen then
      .ok (trunc ++ List.replicate (maxlen - trunc.length) 0)
    else if trunc.length = 1 then .ok []
    else .error "could not broadcast input array from shape (k,) into shape (0,)"

/-- `keras.preprocessing.sequence.pad_sequences(seqs, maxlen, truncating='pre',
padding='post')` (external collaborator, modelled from its documented
contract). -/
def pad_sequences (maxlen : Nat) (seqs : List (List Int)) :
    Except String (List (List Int)) :=
  exceptMap (padSeqRow maxlen) seqs

/-- A value stored in a graph dictionary. -/
inductive PyVal where
  /-- a plain Python list of token-index sequences (ragged) -/
  | iseqs : List (List Int) → PyVal
  /-- a dense 2-d `int32` array (result of `pad_sequences`) -/
  | imat : List (List Int) → PyVal
  /-- a plain Python list of per-sample feature-vector sequences (ragged) -/
  | fseqs : List (List (List ℚ)) → PyVal
  /-- a dense 3-d array with its dtype (result of `pad_3d_sequence`) -/
  | arr3 : DType → List (List (List ℚ)) → PyVal
  /-- a plain Python list of numbers (the raw `score` labels) -/
  | fvec : List ℚ → PyVal
  /-- a dense 1-d array (result of `np.array(gr['score'])`) -/
  | arr1 : List ℚ → PyVal
  /-- a list of token-string lists (e.g. the `s0` texts) -/
  | strs : List (List String) → PyVal
  deriving DecidableEq, Repr

/-- A graph dictionary, as used throughout `ubuntu.py`: string keys mapped to
per-sample arrays.  Python dictionaries have unique keys; `dictGet`/`dictSet`
give the association list Python-dict semantics. -/
abbrev Graph := List (String × PyVal)

/-- `gr[k]` lookup. -/
def dictGet : Graph → String → Option PyVal
  | [], _ => none
  | (k', v) :: g, k => if k' = k then some v else dictGet g k

/-- `gr[k] = v` assignment: replaces the binding when the key is present,
appends it otherwise. -/
def dictSet : Graph → String → PyVal → Graph
  | [], k, v => [(k, v)]
  | (k', w) :: g, k, v => if k' = k then (k, v) :: g else (k', w) :: dictSet g k v

/-- Number of samples along the first axis of a graph value (`len(...)`). -/
def pyLen : PyVal → Nat
  | .iseqs l => l.length
  | .imat l => l.length
  | .fseqs l => l.length
  | .arr3 _ l => l.length
  | .fvec l => l.length
  | .arr1 l => l.length
  | .strs l => l.length

/-- Slice a graph value along its first axis (`v[a:b]`). -/
def pyValSlice (a b : Nat) : PyVal → PyVal
  | .iseqs l => .iseqs (listSlice a b l)
  | .imat l => .imat (listSlice a b l)
  | .fseqs l => .fseqs (listSlice a b l)
  | .arr3 dt l => .arr3 dt (listSlice a b l)
  | .fvec l => .fvec (listSlice a b l)
  | .arr1 l => .arr1 (listSlice a b l)
  | .strs l => .strs (listSlice a b l)

/-- `pad_sequences` applied to a graph value holding sequences: both a ragged
list and an already dense 2-d array are iterable rows for keras. -/
def padSequencesV (maxlen : Nat) : PyVal → Except String PyVal
  | .iseqs l => (pad_sequences maxlen l).map .imat
  | .imat l => (pad_sequences maxlen l).map .imat
  | _ => .error "TypeError: pad_sequences expects a list of sequences"

/-- `pad_3d_sequence` applied to a graph value holding per-sample feature
sequences; a dense 3-d array keeps the feature dimension of empty rows. -/
def pad3dV (maxlen nd : Nat) (dt : DType) : PyVal → Except String PyVal
  | .fseqs l => (pad_3d_sequence false l maxlen nd dt).map (.arr3 dt)
  | .arr3 _ l => (pad_3d_sequence true l maxlen nd dt).map (.arr3 dt)
  | _ => .error "TypeError: pad_3d_sequence expects a list of sequences"

/-- `np.array(gr['score'])`: materializes the label list as a 1-d array
(already an array: copied unchanged). -/
def npArray1V : PyVal → Except String PyVal
  | .fvec l => .ok (.arr1 l)
  | .arr1 l => .ok (.arr1 l)
  | _ => .error "TypeError: np.array expects a list of numbers"

/-- One statement `gr[k] = f(gr[k])` of `pad_graph`: a missing key raises
`KeyError`, a failure of `f` propagates. -/
def getPad (g : Graph) (k : String) (f : PyVal → Except String PyVal) :
    Except String Graph :=
  match dictGet g k with
  | none => .error "KeyError"
  | some v =>
    match f v with
    | .error e => .error e
    | .ok w => .ok (dictSet g k w)

/-- `pad_graph(gr, s0pad, s1pad)` from `src/tasks/ubuntu.py:63-69`.  The module
constant `nlp.flagsdim` (the feature dimension of `f0`/`f1`, owned by the
external `pysts.nlp` collaborator) is passed as the explicit argument `nd`.
The Python function mutates `gr` in place; the embedding returns the dictionary
after the five assignments. -/
def pad_graph (gr : Graph) (s0pad s1pad nd : Nat) : Except String Graph :=
  (getPad gr "si0" (padSequencesV s0pad)).bind fun g1 =>
  (getPad g1 "si1" (padSequencesV s1pad)).bind fun g2 =>
  (getPad g2 "f0" (pad3dV s0pad nd .int32)).bind fun g3 =>
  (getPad g3 "f1" (pad3dV s1pad nd .int32)).bind fun g4 =>
  getPad g4 "score" npArray1V

/-- Modelled from the spec: `pysts.kerasts.graph_input_slice` is code of this
repository that is not under `src/`; per the spec it "extracts a sub-batch by
index range", so every per-sample value of the graph is sliced to `[a:b]`. -/
def graph_input_slice (gr : Graph) (a b : Nat) : Graph :=
  gr.map (fun p => (p.1, pyValSlice a b p.2))

/-- Number of blocks `int(len(gr['si0']) / batch_size)` computed at
`src/tasks/ubuntu.py:76` (true division then truncation, i.e. floor). -/
def numBatches (gr : Graph) (batchSize : Nat) : Nat :=
  (match dictGet gr "si0" with
   | some v => pyLen v
   | none => 0) / batchSize

/-- One `once=True` pass of the generator `sample_pairs` from
`src/tasks/ubuntu.py:72-86`: `perm` is the result of `random.shuffle` on
`ids = range(int(N / batch_size))`; each id yields the padded slice
`[i*batch_size : (i+1)*batch_size]`.  The list collects the yields in order;
an exception while padding a block aborts the generator. -/
def sample_pairs_once (gr : Graph) (batchSize s0pad s1pad nd : Nat)
    (perm : List Nat) : Except String (List Graph) :=
  exceptMap
    (fun i => pad_graph (graph_input_slice gr (i * batchSize) ((i + 1) * batchSize))
      s0pad s1pad nd)
    perm

/-- The first `e` epochs of the `once=False` (infinite) mode of
`sample_pairs`: epoch `j` yields the blocks in the order of the `j`-th
shuffle `perms j`. -/
def sample_pairs_epochs (gr : Graph) (batchSize s0pad s1pad nd : Nat)
    (perms : Nat → List Nat) (e : Nat) : Except String (List Graph) :=
  exceptMap
    (fun i => pad_graph (graph_input_slice gr (i * batchSize) ((i + 1) * batchSize))
      s0pad s1pad nd)
    ((List.range e).flatMap perms)

/-- A vocabulary: token-string to index mapping. -/
abbrev Vocab := List (String × Nat)

/-- The tuple stored in a preprocessed dataset pickle:
`(si0, si1, f0, f1, labels)` (`src/tasks/ubuntu.py:104`). -/
structure PickledSet where
  si0 : List (List Int)
  si1 : List (List Int)
  f0 : List (List (List ℚ))
  f1 : List (List (List ℚ))
  labels : List ℚ
  deriving DecidableEq, Repr

/-- Modelled from the spec: `pysts.kerasts.graph_input_anssel` is code of this
repository that is not under `src/`; per the spec it "builds the example
mapping from raw arrays", i.e. the graph dictionary holding the two
token-index sequence lists, the feature lists and the `score` labels. -/
def graph_input_anssel (si0 si1 : List (List Int)) (y : List ℚ)
    (f0 f1 : List (List (List ℚ))) : Graph :=
  [("si0", .iseqs si0), ("si1", .iseqs si1), ("score", .fvec y),
   ("f0", .fseqs f0), ("f1", .fseqs f1)]

/-- `UbuntuTask.load_set` from `src/tasks/ubuntu.py:103-106`.  The pickle file
is modelled by its parsed content (`none` for a missing or corrupt file, whose
deserialization failure propagates).  `vocab` is the current `self.vocab`
(`none` when `load_vocab` was never called).  Note the body performs no
vocabulary check: it returns `(gr, labels, self.vocab)` directly. -/
def load_set (vocab : Option Vocab) (file : Option PickledSet) :
    Except String (Graph × List ℚ × Option Vocab) :=
  match file with
  | none => .error "UnpicklingError"
  | some d => .ok (graph_input_anssel d.si0 d.si1 d.labels d.f0 d.f1, d.labels, vocab)

/-- `UbuntuTask.eval` from `src/tasks/ubuntu.py:117-125`.  The external model
and metric collaborators are parameters: `predictScore g` models
`model.predict(gr)['score'][:,0]` and `evalU` models `pysts.eval.eval_ubuntu`
(which receives the predictions, `gr['s0']`, `gr['score']` and the file name
and returns the metrics mapping).  A split whose graph is unset (`none`)
contributes `None` to the result tuple. -/
def UbuntuTask.eval {M : Type} (evalU : List ℚ → Option PyVal → Option PyVal → String → M)
    (predictScore : Graph → List ℚ) (gr grv grt : Option Graph)
    (trainf valf testf : String) : Option M × Option M × Option M :=
  (match gr with
   | none => none
   | some g => some (evalU (predictScore g) (dictGet g "s0") (dictGet g "score") trainf),
   match grv with
   | none => none
   | some g => some (evalU (predictScore g) (dictGet g "s0") (dictGet g "score") valf),
   match grt with
   | none => none
   | some g => some (evalU (predictScore g) (dictGet g "s0") (dictGet g "score") testf))

/-- The value an `exceptMap` run produced for an element, with a default for
the (never reached) error case. -/
def okD (f : α → Except String β) (dflt : β) (a : α) : β :=
  match f a with
  | .ok b => b
  | .error _ => dflt

/-- Example dataset of 5 samples (the spec's worked example for
`batch_size = 2`). -/
def exRows5 : List (List Int) := [[1], [2], [3], [4], [5]]

/-- Example graph over `exRows5`. -/
def exGraph5 : Graph :=
  [("si0", .iseqs exRows5), ("si1", .iseqs exRows5),
   ("f0", .fseqs [[[1]], [[1]], [[1]], [[1]], [[1]]]),
   ("f1", .fseqs [[[1]], [[1]], [[1]], [[1]], [[1]]]),
   ("score", .fvec [1, 0, 1, 0, 1])]

/-- The padded batch of block 0 (samples 0 and 1) of `exGraph5`. -/
def exBatch0 : Graph :=
  [("si0", .imat [[1], [2]]), ("si1", .imat [[1], [2]]),
   ("f0", .arr3 .int32 [[[1]], [[1]]]), ("f1", .arr3 .int32 [[[1]], [[1]]]),
   ("score", .arr1 [1, 0])]

/-- The padded batch of block 1 (samples 2 and 3) of `exGraph5`. -/
def exBatch1 : Graph :=
  [("si0", .imat [[3], [4]]), ("si1", .imat [[3], [4]]),
   ("f0", .arr3 .int32 [[[1]], [[1]]]), ("f1", .arr3 .int32 [[[1]], [[1]]]),
   ("score", .arr1 [1, 0])]

/-- Example one-sample token-index list. -/
def exRows1 : List (List Int) := [[3]]

/-- Example one-sample graph. -/
def exGraph1 : Graph :=
  [("si0", .iseqs exRows1), ("si1", .iseqs [[4]]), ("f0", .fseqs [[[1]]]),
   ("f1", .fseqs [[[1]]]), ("score", .fvec [1])]

/-- The padded batch of the single block of `exGraph1`. -/
def exBatchG1 : Graph :=
  [("si0", .imat [[3]]), ("si1", .imat [[4]]), ("f0", .arr3 .int32 [[[1]]]),
   ("f1", .arr3 .int32 [[[1]]]), ("score", .arr1 [1])]

theorem wrap32_idem (x : Int) : wrap32 (wrap32 x) = wrap32 x := by
  unfold wrap32
  have h1 : 0 ≤ (x + 2 ^ 31) % 2 ^ 32 := Int.emod_nonneg _ (by norm_num)
  have h2 : (x + 2 ^ 31) % 2 ^ 32 < 2 ^ 32 := Int.emod_lt_of_pos _ (by norm_num)
  have : ((x + 2 ^ 31) % 2 ^ 32 - 2 ^ 31 + 2 ^ 31) % 2 ^ 32 = (x + 2 ^ 31) % 2 ^ 32 := by
    rw [sub_add_cancel]
    exact Int.emod_emod_of_dvd _ dvd_rfl
  omega

theorem wrap32_zero : wrap32 0 = 0 := by decide

theorem truncToZero_intCast (z : Int) : truncToZero (z : ℚ) = z := by
  unfold truncToZero
  split <;> simp

theorem castScalar_int32_idem (q : ℚ) :
    castScalar .int32 (castScalar .int32 q) = castScalar .int32 q := by
  simp [castScalar, truncToZero_intCast, wrap32_idem]

theorem castScalar_int32_zero : castScalar .int32 0 = 0 := by
  have : truncToZero 0 = 0 := by
    unfold truncToZero; norm_num
  simp [castScalar, this, wrap32_zero]

theorem castVec_length (dt : DType) (v : List ℚ) : (castVec dt v).length = v.length := by
  simp [castVec]

theorem castVec_int32_idem (v : List ℚ) :
    castVec .int32 (castVec .int32 v) = castVec .int32 v := by
  simp [castVec, List.map_map, Function.comp]
  exact fun q _ => castScalar_int32_idem q

theorem castVec_int32_zero (nd : Nat) :
    castVec .int32 (List.replicate nd 0) = List.replicate nd 0 := by
  simp [castVec, List.map_replicate, castScalar_int32_zero]

theorem pythonTail_eq_nil_iff (maxlen : Nat) (l : List α) :
    pythonTail maxlen l = [] ↔ l = [] := by
  unfold pythonTail
  split
  · simp
  · constructor
    · intro h
      rcases List.eq_nil_or_concat l with h0 | ⟨l', a, rfl⟩
      · exact h0
      · exfalso
        have hlen := congrArg List.length h
        simp at hlen
        omega
    · intro h; simp [h]

theorem pythonTail_length (maxlen : Nat) (l : List α) (h : 0 < maxlen) :
    (pythonTail maxlen l).length = min l.length maxlen := by
  unfold pythonTail
  rw [if_neg (Nat.pos_iff_ne_zero.mp h)]
  simp [List.length_drop]
  omega

theorem exceptMap_ok_iff (f : α → Except String β) (l : List α) (ys : List β) :
    exceptMap f l = .ok ys ↔ List.Forall₂ (fun a b => f a = .ok b) l ys := by
  induction l generalizing ys with
  | nil =>
    cases ys <;> simp [exceptMap]
  | cons a l ih =>
    cases ys with
    | nil =>
      simp only [exceptMap, List.forall₂_nil_right_iff]
      constructor
      · intro h
        cases hfa : f a <;> rw [hfa] at h
        · exact absurd h (by simp)
        · cases hm : exceptMap f l <;> rw [hm] at h <;> simp at h
      · intro h; exact absurd h (by simp)
    | cons b bs =>
      simp only [exceptMap, List.forall₂_cons]
      constructor
      · intro h
        cases hfa : f a <;> rw [hfa] at h
        · exact absurd h (by simp)
        · cases hm : exceptMap f l <;> rw [hm] at h <;> simp at h
          obtain ⟨h1, h2⟩ := h
          subst h1
          subst h2
          exact ⟨rfl, (ih _).mp hm⟩
      · rintro ⟨h1, h2⟩
        rw [h1, (ih bs).mpr h2]

theorem exceptMap_ok_length (f : α → Except String β) (l : List α) (ys : List β)
    (h : exceptMap f l = .ok ys) : ys.length = l.length :=
  (((exceptMap_ok_iff f l ys).mp h).length_eq).symm

theorem exceptMap_ok_of_forall (f : α → Except String β) (l : List α)
    (h : ∀ a ∈ l, ∃ b, f a = .ok b) :
    ∃ ys, exceptMap f l = .ok ys ∧ ys.length = l.length := by
  induction l with
  | nil => exact ⟨[], rfl, rfl⟩
  | cons a l ih =>
    obtain ⟨b, hb⟩ := h a (List.mem_cons_self a l)
    obtain ⟨ys, hys, hlen⟩ := ih (fun x hx => h x (List.mem_cons_of_mem a hx))
    refine ⟨b :: ys, ?_, by simp [hlen]⟩
    simp [exceptMap, hb, hys]

theorem exceptMap_ok_eq_map (f : α → Except String β) (l : List α) (ys : List β)
    (dflt : β) (h : exceptMap f l = .ok ys) : ys = l.map (okD f dflt) := by
  have h2 := (exceptMap_ok_iff f l ys).mp h
  induction h2 with
  | nil => rfl
  | cons hab _ ih =>
    simp only [List.map_cons]
    refine congrArg₂ _ ?_ (ih ?_)
    · simp [okD, hab]
    · rw [exceptMap_ok_iff]
      assumption

theorem exceptMap_error_of_mem (f : α → Except String β) (l : List α) (a : α)
    (ha : a ∈ l) (hfa : ∀ b, f a ≠ .ok b) : ∃ msg, exceptMap f l = .error msg := by
  induction l with
  | nil => cases ha
  | cons x l ih =>
    rcases List.mem_cons.mp ha with rfl | hmem
    · cases hfx : f a with
      | error e => exact ⟨e, by simp [exceptMap, hfx]⟩
      | ok b => exact absurd hfx (hfa b)
    · cases hfx : f x with
      | error e => exact ⟨e, by simp [exceptMap, hfx]⟩
      | ok b =>
        obtain ⟨msg, hmsg⟩ := ih hmem
        exact ⟨msg, by simp [exceptMap, hfx, hmsg]⟩

theorem dictGet_dictSet_self (g : Graph) (k : String) (v : PyVal) :
    dictGet (dictSet g k v) k = some v := by
  induction g with
  | nil => simp [dictGet, dictSet]
  | cons p g ih =>
    by_cases h : p.1 = k
    · simp [dictSet, h, dictGet]
    · simp [dictSet, h, dictGet, ih]

theorem dictGet_dictSet_ne (g : Graph) (k k' : String) (v : PyVal) (h : k' ≠ k) :
    dictGet (dictSet g k v) k' = dictGet g k' := by
  induction g with
  | nil =>
    have hne : ¬ k = k' := fun hh => h hh.symm
    simp [dictGet, dictSet, hne]
  | cons p g ih =>
    by_cases hp : p.1 = k
    · have hne : ¬ k = k' := fun hh => h hh.symm
      simp [dictSet, hp, dictGet, hne, h]
    · by_cases hp' : p.1 = k'
      · simp [dictSet, hp, dictGet, hp', h]
      · simp [dictSet, hp, dictGet, hp', ih]

theorem dictSet_eq_of_get (g : Graph) (k : String) (v : PyVal)
    (h : dictGet g k = some v) : dictSet g k v = g := by
  induction g with
  | nil => simp [dictGet] at h
  | cons p g ih =>
    cases p with
    | mk k0 v0 =>
      by_cases hp : k0 = k
      · rw [dictGet, if_pos hp] at h
        have hv : v0 = v := Option.some.inj h
        simp [dictSet, hp, hv]
      · rw [dictGet, if_neg hp] at h
        simp [dictSet, hp, ih h]

theorem getPad_ok_iff (g g' : Graph) (k : String) (f : PyVal → Except String PyVal) :
    getPad g k f = .ok g' ↔
      ∃ v w, dictGet g k = some v ∧ f v = .ok w ∧ g' = dictSet g k w := by
  cases hv : dictGet g k with
  | none => simp [getPad, hv]
  | some v =>
    cases hw : f v with
    | error e => simp [getPad, hv, hw]
    | ok w =>
      simp [getPad, hv, hw]
      exact eq_comm

theorem except_bind_ok {α β : Type} (x : Except String α) (f : α → Except String β)
    (y : β) : x.bind f = .ok y ↔ ∃ a, x = .ok a ∧ f a = .ok y := by
  cases x <;> simp [Except.bind]

theorem pythonTail_of_le (maxlen : Nat) (l : List α) (h : l.length ≤ maxlen) :
    pythonTail maxlen l = l := by
  unfold pythonTail
  split
  · rfl
  · rw [Nat.sub_eq_zero_of_le h, List.drop_zero]

theorem pad3dRow_ok_shape (dense : Bool) (maxlen nd : Nat) (dt : DType)
    (seq r : List (List ℚ)) (h : pad3dRow dense maxlen nd dt seq = .ok r) :
    r.length = maxlen ∧ ∀ v ∈ r, v.length = nd := by
  simp only [pad3dRow] at h
  split at h
  · split at h
    · obtain rfl := Except.ok.inj h
      constructor
      · simp
      · intro v hv
        rw [List.eq_of_mem_replicate hv]
        simp
    · simp at h
  · split at h
    · rename_i hall
      simp only [List.all_eq_true, decide_eq_true_eq] at hall
      split at h
      · rename_i hle
        obtain rfl := Except.ok.inj h
        simp only [List.length_map] at hle
        constructor
        · simp
          omega
        · intro v hv
          rcases List.mem_append.mp hv with hv | hv
          · obtain ⟨u, hu, rfl⟩ := List.mem_map.mp hv
            rw [castVec_length]
            exact hall u hu
          · rw [List.eq_of_mem_replicate hv]
            simp
      · split at h
        · rename_i hnle hone
          obtain rfl := Except.ok.inj h
          simp only [List.length_map] at hnle hone
          constructor
          · simp
            omega
          · intro v hv
            cases hv
        · simp at h
    · simp at h

theorem pad3dRow_ok_cast_fixed (dense : Bool) (maxlen nd : Nat)
    (seq r : List (List ℚ)) (h : pad3dRow dense maxlen nd .int32 seq = .ok r) :
    ∀ v ∈ r, castVec .int32 v = v := by
  simp only [pad3dRow] at h
  split at h
  · split at h
    · obtain rfl := Except.ok.inj h
      intro v hv
      rw [List.eq_of_mem_replicate hv]
      exact castVec_int32_zero nd
    · simp at h
  · split at h
    · split at h
      · obtain rfl := Except.ok.inj h
        intro v hv
        rcases List.mem_append.mp hv with hv | hv
        · obtain ⟨u, hu, rfl⟩ := List.mem_map.mp hv
          exact castVec_int32_idem u
        · rw [List.eq_of_mem_replicate hv]
          exact castVec_int32_zero nd
      · split at h
        · obtain rfl := Except.ok.inj h
          intro v hv
          cases hv
        · simp at h
    · simp at h

theorem pad3dRow_idem (dense : Bool) (maxlen nd : Nat) (seq r : List (List ℚ))
    (h : pad3dRow dense maxlen nd .int32 seq = .ok r) :
    pad3dRow true maxlen nd .int32 r = .ok r := by
  obtain ⟨hlen, hnd⟩ := pad3dRow_ok_shape dense maxlen nd .int32 seq r h
  have hfix := pad3dRow_ok_cast_fixed dense maxlen nd seq r h
  have htail : pythonTail maxlen r = r := pythonTail_of_le maxlen r (le_of_eq hlen)
  cases r with
  | nil =>
    have hm : maxlen = 0 := by simpa using hlen.symm
    subst hm
    rfl
  | cons b rest =>
    have hall : ((b :: rest).all fun v => v.length = nd) = true := by
      simp only [List.all_eq_true, decide_eq_true_eq]
      exact hnd
    have hmap : (b :: rest).map (castVec .int32) = b :: rest := by
      have h2 := List.map_congr_left (f := castVec .int32) (g := id)
        (fun v hv => (hfix v hv : castVec .int32 v = id v))
      simpa using h2
    simp [pad3dRow, htail, hall, hmap, hlen]

theorem padSeqRow_ok_shape (maxlen : Nat) (s r : List Int)
    (h : padSeqRow maxlen s = .ok r) : r.length = maxlen := by
  simp only [padSeqRow] at h
  split at h
  · obtain rfl := Except.ok.inj h
    simp
  · split at h
    · rename_i hle
      obtain rfl := Except.ok.inj h
      simp only [List.length_map] at hle
      simp
      omega
    · split at h
      · rename_i hnle hone
        obtain rfl := Except.ok.inj h
        simp only [List.length_map] at hnle hone
        simp
        omega
      · simp at h

theorem padSeqRow_ok_wrap_fixed (maxlen : Nat) (s r : List Int)
    (h : padSeqRow maxlen s = .ok r) : ∀ x ∈ r, wrap32 x = x := by
  simp only [padSeqRow] at h
  split at h
  · obtain rfl := Except.ok.inj h
    intro x hx
    rw [List.eq_of_mem_replicate hx]
    exact wrap32_zero
  · split at h
    · obtain rfl := Except.ok.inj h
      intro x hx
      rcases List.mem_append.mp hx with hx | hx
      · obtain ⟨u, _, rfl⟩ := List.mem_map.mp hx
        exact wrap32_idem u
      · rw [List.eq_of_mem_replicate hx]
        exact wrap32_zero
    · split at h
      · obtain rfl := Except.ok.inj h
        intro x hx
        cases hx
      · simp at h

theorem padSeqRow_idem (maxlen : Nat) (s r : List Int)
    (h : padSeqRow maxlen s = .ok r) : padSeqRow maxlen r = .ok r := by
  have hlen := padSeqRow_ok_shape maxlen s r h
  have hfix := padSeqRow_ok_wrap_fixed maxlen s r h
  have htail : pythonTail maxlen r = r := pythonTail_of_le maxlen r (le_of_eq hlen)
  cases r with
  | nil =>
    have hm : maxlen = 0 := by simpa using hlen.symm
    subst hm
    rfl
  | cons b rest =>
    have hmap : (b :: rest).map wrap32 = b :: rest := by
      have h2 := List.map_congr_left (f := wrap32) (g := id)
        (fun x hx => (hfix x hx : wrap32 x = id x))
      simpa using h2
    simp [padSeqRow, htail, hmap, hlen]

theorem exceptMap_reok (f : α → Except String β) (g : β → Except String β)
    (l : List α) (ys : List β) (hfg : ∀ a b, f a = .ok b → g b = .ok b)
    (h : exceptMap f l = .ok ys) : exceptMap g ys = .ok ys := by
  have h2 := (exceptMap_ok_iff f l ys).mp h
  rw [exceptMap_ok_iff]
  clear h
  induction h2 with
  | nil => exact List.Forall₂.nil
  | cons hab _ ih => exact List.Forall₂.cons (hfg _ _ hab) ih

theorem pad_sequences_idem (maxlen : Nat) (l m : List (List Int))
    (h : pad_sequences maxlen l = .ok m) : pad_sequences maxlen m = .ok m :=
  exceptMap_reok (padSeqRow maxlen) (padSeqRow maxlen) l m (padSeqRow_idem maxlen) h

theorem pad_3d_sequence_idem (dense : Bool) (l m : List (List (List ℚ)))
    (maxlen nd : Nat) (h : pad_3d_sequence dense l maxlen nd .int32 = .ok m) :
    pad_3d_sequence true m maxlen nd .int32 = .ok m :=
  exceptMap_reok (pad3dRow dense maxlen nd .int32) (pad3dRow true maxlen nd .int32)
    l m (pad3dRow_idem dense maxlen nd) h

theorem padSequencesV_ok_elim (maxlen : Nat) (v w : PyVal)
    (h : padSequencesV maxlen v = .ok w) :
    ∃ l m, (v = .iseqs l ∨ v = .imat l) ∧ pad_sequences maxlen l = .ok m ∧ w = .imat m := by
  cases v <;> simp only [padSequencesV] at h
  case iseqs l =>
    cases hm : pad_sequences maxlen l with
    | error e => rw [hm] at h; simp [Except.map] at h
    | ok m =>
      rw [hm] at h
      simp only [Except.map] at h
      exact ⟨l, m, Or.inl rfl, hm, (Except.ok.inj h).symm⟩
  case imat l =>
    cases hm : pad_sequences maxlen l with
    | error e => rw [hm] at h; simp [Except.map] at h
    | ok m =>
      rw [hm] at h
      simp only [Except.map] at h
      exact ⟨l, m, Or.inr rfl, hm, (Except.ok.inj h).symm⟩
  all_goals simp at h

theorem pad3dV_ok_elim (maxlen nd : Nat) (dt : DType) (v w : PyVal)
    (h : pad3dV maxlen nd dt v = .ok w) :
    ∃ dense l m, (if dense then (∃ dt0, v = .arr3 dt0 l) else v = .fseqs l)
      ∧ pad_3d_sequence dense l maxlen nd dt = .ok m ∧ w = .arr3 dt m := by
  cases v <;> simp only [pad3dV] at h
  case fseqs l =>
    cases hm : pad_3d_sequence false l maxlen nd dt with
    | error e => rw [hm] at h; simp [Except.map] at h
    | ok m =>
      rw [hm] at h
      simp only [Except.map] at h
      exact ⟨false, l, m, rfl, hm, (Except.ok.inj h).symm⟩
  case arr3 dt0 l =>
    cases hm : pad_3d_sequence true l maxlen nd dt with
    | error e => rw [hm] at h; simp [Except.map] at h
    | ok m =>
      rw [hm] at h
      simp only [Except.map] at h
      exact ⟨true, l, m, by simp, hm, (Except.ok.inj h).symm⟩
  all_goals simp at h

theorem padSequencesV_idem (maxlen : Nat) (v w : PyVal)
    (h : padSequencesV maxlen v = .ok w) : padSequencesV maxlen w = .ok w := by
  obtain ⟨l, m, _, hpad, rfl⟩ := padSequencesV_ok_elim maxlen v w h
  simp only [padSequencesV, pad_sequences_idem maxlen l m hpad, Except.map]

theorem pad3dV_idem (maxlen nd : Nat) (v w : PyVal)
    (h : pad3dV maxlen nd .int32 v = .ok w) : pad3dV maxlen nd .int32 w = .ok w := by
  obtain ⟨dense, l, m, _, hpad, rfl⟩ := pad3dV_ok_elim maxlen nd .int32 v w h
  simp only [pad3dV, pad_3d_sequence_idem dense l m maxlen nd hpad, Except.map]

theorem npArray1V_ok_elim (v w : PyVal) (h : npArray1V v = .ok w) :
    ∃ l, (v = .fvec l ∨ v = .arr1 l) ∧ w = .arr1 l := by
  cases v <;> simp only [npArray1V] at h
  case fvec l => exact ⟨l, Or.inl rfl, (Except.ok.inj h).symm⟩
  case arr1 l => exact ⟨l, Or.inr rfl, (Except.ok.inj h).symm⟩
  all_goals simp at h

theorem npArray1V_idem (v w : PyVal) (h : npArray1V v = .ok w) :
    npArray1V w = .ok w := by
  obtain ⟨l, _, rfl⟩ := npArray1V_ok_elim v w h
  rfl

theorem exceptMap_ok_getD (f : α → Except String β) (l : List α) (ys : List β)
    (h : exceptMap f l = .ok ys) (i : Nat) (hi : i < l.length) (da : α) (db : β) :
    f (l.getD i da) = .ok (ys.getD i db) := by
  have h2 := (exceptMap_ok_iff f l ys).mp h
  clear h
  induction h2 generalizing i with
  | nil => simp at hi
  | cons hab htail ih =>
    cases i with
    | zero => simpa using hab
    | succ n =>
      simp only [List.getD_cons_succ]
      exact ih n (by simpa using hi)

theorem exceptMap_ok_mem_right (f : α → Except String β) (l : List α) (ys : List β)
    (h : exceptMap f l = .ok ys) (b : β) (hb : b ∈ ys) : ∃ a ∈ l, f a = .ok b := by
  have h2 := (exceptMap_ok_iff f l ys).mp h
  clear h
  induction h2 with
  | nil => cases hb
  | cons hab htail ih =>
    rcases List.mem_cons.mp hb with rfl | hb2
    · exact ⟨_, List.mem_cons_self _ _, hab⟩
    · obtain ⟨a, ha, hfa⟩ := ih hb2
      exact ⟨a, List.mem_cons_of_mem _ ha, hfa⟩

theorem pad_graph_ok_elim (gr gr' : Graph) (s0pad s1pad nd : Nat)
    (h : pad_graph gr s0pad s1pad nd = .ok gr') :
    ∃ v0 w0 v1 w1 v2 w2 v3 w3 v4 w4,
      dictGet gr "si0" = some v0 ∧ padSequencesV s0pad v0 = .ok w0 ∧
      dictGet gr "si1" = some v1 ∧ padSequencesV s1pad v1 = .ok w1 ∧
      dictGet gr "f0" = some v2 ∧ pad3dV s0pad nd .int32 v2 = .ok w2 ∧
      dictGet gr "f1" = some v3 ∧ pad3dV s1pad nd .int32 v3 = .ok w3 ∧
      dictGet gr "score" = some v4 ∧ npArray1V v4 = .ok w4 ∧
      gr' = dictSet (dictSet (dictSet (dictSet (dictSet gr "si0" w0) "si1" w1)
        "f0" w2) "f1" w3) "score" w4 := by
  unfold pad_graph at h
  rw [except_bind_ok] at h
  obtain ⟨g1, h1, h⟩ := h
  rw [except_bind_ok] at h
  obtain ⟨g2, h2, h⟩ := h
  rw [except_bind_ok] at h
  obtain ⟨g3, h3, h⟩ := h
  rw [except_bind_ok] at h
  obtain ⟨g4, h4, h5⟩ := h
  rw [getPad_ok_iff] at h1 h2 h3 h4 h5
  obtain ⟨v0, w0, hv0, hw0, rfl⟩ := h1
  obtain ⟨v1, w1, hv1, hw1, rfl⟩ := h2
  obtain ⟨v2, w2, hv2, hw2, rfl⟩ := h3
  obtain ⟨v3, w3, hv3, hw3, rfl⟩ := h4
  obtain ⟨v4, w4, hv4, hw4, rfl⟩ := h5
  rw [dictGet_dictSet_ne _ _ _ _ (by decide)] at hv1
  rw [dictGet_dictSet_ne _ _ _ _ (by decide),
      dictGet_dictSet_ne _ _ _ _ (by decide)] at hv2
  rw [dictGet_dictSet_ne _ _ _ _ (by decide), dictGet_dictSet_ne _ _ _ _ (by decide),
      dictGet_dictSet_ne _ _ _ _ (by decide)] at hv3
  rw [dictGet_dictSet_ne _ _ _ _ (by decide), dictGet_dictSet_ne _ _ _ _ (by decide),
      dictGet_dictSet_ne _ _ _ _ (by decide),
      dictGet_dictSet_ne _ _ _ _ (by decide)] at hv4
  exact ⟨v0, w0, v1, w1, v2, w2, v3, w3, v4, w4, hv0, hw0, hv1, hw1, hv2, hw2,
    hv3, hw3, hv4, hw4, rfl⟩

theorem dictGet_graph_input_slice (gr : Graph) (a b : Nat) (k : String) :
    dictGet (graph_input_slice gr a b) k = (dictGet gr k).map (pyValSlice a b) := by
  induction gr with
  | nil => rfl
  | cons p g ih =>
    by_cases hp : p.1 = k
    · simp [graph_input_slice, dictGet, hp]
    · simp only [graph_input_slice, List.map_cons, dictGet, hp, if_neg]
      simpa [graph_input_slice] using ih

theorem listSlice_length (a b : Nat) (l : List α) :
    (listSlice a b l).length = min (b - a) (l.length - a) := by
  simp [listSlice]

theorem padSequencesV_pyLen (maxlen : Nat) (v w : PyVal)
    (h : padSequencesV maxlen v = .ok w) : pyLen w = pyLen v := by
  obtain ⟨l, m, hv, hpad, rfl⟩ := padSequencesV_ok_elim maxlen v w h
  have hlen := exceptMap_ok_length _ _ _ hpad
  rcases hv with rfl | rfl <;> simpa [pyLen] using hlen

theorem pythonTail_subset (maxlen : Nat) (l : List α) : pythonTail maxlen l ⊆ l := by
  unfold pythonTail
  split
  · exact fun _ h => h
  · exact List.drop_subset _ l

theorem pad3dRow_nil_sparse (maxlen nd : Nat) (dt : DType) (hnd : nd ≠ 0) :
    pad3dRow false maxlen nd dt []
      = .error "could not broadcast input array from shape (0,) into shape (0,nd)" := by
  have ht : pythonTail maxlen ([] : List (List ℚ)) = [] := by
    unfold pythonTail
    split <;> simp
  simp [pad3dRow, ht, hnd]

theorem pad3dRow_nil_dense (maxlen nd : Nat) (dt : DType) :
    pad3dRow true maxlen nd dt []
      = .ok (List.replicate maxlen (List.replicate nd 0)) := by
  have ht : pythonTail maxlen ([] : List (List ℚ)) = [] := by
    unfold pythonTail
    split <;> simp
  simp [pad3dRow, ht]

theorem pad3dRow_take (dense : Bool) (maxlen nd : Nat) (dt : DType)
    (seq r : List (List ℚ)) (h : pad3dRow dense maxlen nd dt seq = .ok r)
    (hlong : maxlen < seq.length) :
    r.take maxlen = ((pythonTail maxlen seq).map (castVec dt)).take maxlen := by
  have hne : ¬ (pythonTail maxlen seq).isEmpty = true := by
    rw [List.isEmpty_iff, pythonTail_eq_nil_iff]
    intro hcon
    rw [hcon] at hlong
    simp at hlong
  simp only [pad3dRow] at h
  rw [if_neg hne] at h
  split at h
  · split at h
    · rename_i hle
      obtain rfl := Except.ok.inj h
      simp only [List.length_map] at hle
      have hge : maxlen ≤ (pythonTail maxlen seq).length := by
        rcases Nat.eq_zero_or_pos maxlen with rfl | hpos
        · exact Nat.zero_le _
        · rw [pythonTail_length maxlen seq hpos]
          omega
      rw [List.take_append_of_le_length (by simpa using hge)]
    · split at h
      · rename_i hnle hone
        obtain rfl := Except.ok.inj h
        simp only [List.length_map] at hnle hone
        have hm : maxlen = 0 := by omega
        simp [hm]
      · simp at h
  · simp at h

theorem pad3dRow_short (dense : Bool) (maxlen nd : Nat) (dt : DType)
    (seq r : List (List ℚ)) (h : pad3dRow dense maxlen nd dt seq = .ok r)
    (hshort : seq.length < maxlen) :
    r = seq.map (castVec dt)
      ++ List.replicate (maxlen - seq.length) (List.replicate nd 0) := by
  have htail : pythonTail maxlen seq = seq :=
    pythonTail_of_le maxlen seq (le_of_lt hshort)
  simp only [pad3dRow, htail] at h
  cases seq with
  | nil =>
    simp only [List.isEmpty_nil, if_pos] at h
    split at h
    · obtain rfl := Except.ok.inj h
      simp
    · simp at h
  | cons b rest =>
    rw [if_neg (by simp)] at h
    split at h
    · rw [if_pos (by simp only [List.length_map]; exact le_of_lt hshort)] at h
      obtain rfl := Except.ok.inj h
      simp
    · simp at h

/-- Claim C1, counterexample: calling `pad_3d_sequence` on a list containing an
empty sequence (given, as in the dataset pickles, as a plain empty Python
list) raises a numpy broadcast `ValueError` instead of returning a tensor
with an all-zero row. -/
theorem C1_counterexample :
    pad_3d_sequence false [[]] 3 2 .int32
      = .error "could not broadcast input array from shape (0,) into shape (0,nd)" := rfl

/-- Claim C1 (amended): an empty sequence passed as a plain Python list makes
`pad_3d_sequence` raise a broadcast error (for any `nd > 0`) rather than
return; only an empty sequence that itself carries the feature dimension
`(0, nd)` — a row of an already-dense 3-d array — yields the all-zero output
row without an exception. -/
theorem C1_empty_sequence (seqs : List (List (List ℚ))) (maxlen nd : Nat)
    (dt : DType) (hmem : [] ∈ seqs) (hnd : 0 < nd) :
    (∃ msg, pad_3d_sequence false seqs maxlen nd dt = .error msg)
    ∧ ∀ out, pad_3d_sequence true seqs maxlen nd dt = .ok out →
        ∀ i, i < seqs.length → seqs.getD i [] = [] →
          out.getD i [] = List.replicate maxlen (List.replicate nd 0) := by
  constructor
  · refine exceptMap_error_of_mem _ _ _ hmem ?_
    intro b hb
    rw [pad3dRow_nil_sparse maxlen nd dt (Nat.pos_iff_ne_zero.mp hnd)] at hb
    cases hb
  · intro out hok i hi hseq
    have hrow := exceptMap_ok_getD _ _ _ hok i hi [] []
    rw [hseq, pad3dRow_nil_dense maxlen nd dt] at hrow
    exact (Except.ok.inj hrow).symm

/-- Claim C1, witness: the amended statement evaluated at the concrete input
`[[]]` with `maxlen = 3`, `nd = 2`. -/
theorem C1_witness :
    (∃ msg, pad_3d_sequence false [[]] 3 2 .int32 = .error msg)
    ∧ ∀ out, pad_3d_sequence true [[]] 3 2 .int32 = .ok out →
        ∀ i, i < ([[]] : List (List (List ℚ))).length →
          ([[]] : List (List (List ℚ))).getD i [] = [] →
          out.getD i [] = List.replicate 3 (List.replicate 2 0) :=
  C1_empty_sequence [[]] 3 2 .int32 (by simp) (by decide)

/-- Claim C2, counterexample: a feature sequence holding the integer value
`2^31` (stored by numpy as an int64 array) is cast by `pad_3d_sequence` under
the default dtype parameter to an int32 tensor holding the wrapped value
`-2^31`: neither the integer dtype of the input nor its value is preserved. -/
theorem C2_counterexample :
    pad3dV 1 1 .int32 (.fseqs [[[2147483648]]])
      = .ok (.arr3 .int32 [[[-2147483648]]])
    ∧ inferDType [[[2147483648]]] = .int64
    ∧ DType.int32 ≠ DType.int64
    ∧ castScalar .int32 2147483648 ≠ 2147483648 := by
  refine ⟨rfl, by decide, by decide, by decide⟩

/-- Claim C2 (amended): the dtype of the tensor produced by `pad_3d_sequence`
is its `dtype` parameter (default `'int32'`), irrespective of the dtype of the
input sequences; in particular `pad_graph`, which calls it with the default,
stores the padded `f0` and `f1` as int32 tensors. -/
theorem C2_dtype_is_parameter (maxlen nd : Nat) (dt : DType) (v w : PyVal)
    (gr gr' : Graph) (s0pad s1pad nd' : Nat)
    (h : pad3dV maxlen nd dt v = .ok w)
    (h2 : pad_graph gr s0pad s1pad nd' = .ok gr') :
    (∃ d, w = .arr3 dt d)
    ∧ (∃ d0, dictGet gr' "f0" = some (.arr3 .int32 d0))
    ∧ (∃ d1, dictGet gr' "f1" = some (.arr3 .int32 d1)) := by
  obtain ⟨dense, l, m, _, _, rfl⟩ := pad3dV_ok_elim maxlen nd dt v w h
  obtain ⟨v0, w0, v1, w1, v2, w2, v3, w3, v4, w4, hv0, hw0, hv1, hw1, hv2, hw2,
    hv3, hw3, hv4, hw4, rfl⟩ := pad_graph_ok_elim gr gr' s0pad s1pad nd' h2
  obtain ⟨d2, l2, m2, _, _, rfl⟩ := pad3dV_ok_elim s0pad nd' .int32 v2 w2 hw2
  obtain ⟨d3, l3, m3, _, _, rfl⟩ := pad3dV_ok_elim s1pad nd' .int32 v3 w3 hw3
  refine ⟨⟨m, rfl⟩, ⟨m2, ?_⟩, ⟨m3, ?_⟩⟩
  · rw [dictGet_dictSet_ne _ _ _ _ (by decide), dictGet_dictSet_ne _ _ _ _ (by decide),
        dictGet_dictSet_self]
  · rw [dictGet_dictSet_ne _ _ _ _ (by decide), dictGet_dictSet_self]

/-- Claim C2, witness: the amended statement evaluated on a concrete feature
value and a concrete one-sample graph. -/
theorem C2_witness :
    (∃ d, (PyVal.arr3 .int32 [[[-2147483648]]]) = .arr3 .int32 d)
    ∧ (∃ d0, dictGet [("si0", .imat [[3]]), ("si1", .imat [[4]]),
        ("f0", .arr3 .int32 [[[1]]]), ("f1", .arr3 .int32 [[[1]]]),
        ("score", .arr1 [1])] "f0" = some (.arr3 .int32 d0))
    ∧ (∃ d1, dictGet [("si0", .imat [[3]]), ("si1", .imat [[4]]),
        ("f0", .arr3 .int32 [[[1]]]), ("f1", .arr3 .int32 [[[1]]]),
        ("score", .arr1 [1])] "f1" = some (.arr3 .int32 d1)) :=
  C2_dtype_is_parameter 1 1 .int32 (.fseqs [[[2147483648]]])
    (.arr3 .int32 [[[-2147483648]]])
    [("si0", .iseqs [[3]]), ("si1", .iseqs [[4]]), ("f0", .fseqs [[[1]]]),
     ("f1", .fseqs [[[1]]]), ("score", .fvec [1])]
    [("si0", .imat [[3]]), ("si1", .imat [[4]]), ("f0", .arr3 .int32 [[[1]]]),
     ("f1", .arr3 .int32 [[[1]]]), ("score", .arr1 [1])]
    1 1 1 rfl rfl

/-- Claim C3, counterexample: with no vocabulary loaded (`self.vocab = None`),
`load_set` on a well-formed pickle file returns normally — an `.ok` tuple whose
third component is the unchecked `None` — instead of failing. -/
theorem C3_counterexample :
    load_set none (some ⟨[[1]], [[2]], [[[1]]], [[[1]]], [1]⟩)
      = .ok ([("si0", .iseqs [[1]]), ("si1", .iseqs [[2]]), ("score", .fvec [1]),
              ("f0", .fseqs [[[1]]]), ("f1", .fseqs [[[1]]])], [1], none) := rfl

/-- Claim C3 (amended): `load_set` performs no vocabulary check; whatever
`self.vocab` currently is — in particular `None` when `load_vocab` was never
called — a successfully unpickled file makes `load_set` return normally, with
the unchecked vocabulary as the third component.  A failure from the missing
vocabulary can only arise downstream, where that `None` is used. -/
theorem C3_no_vocab_check (vocab : Option Vocab) (d : PickledSet) :
    load_set vocab (some d)
      = .ok (graph_input_anssel d.si0 d.si1 d.labels d.f0 d.f1, d.labels, vocab) := rfl

/-- Claim C5, counterexample: a two-token sequence holding `1` and `2^31`,
padded to `maxlen = 1`, keeps its last token but stores it int32-wrapped as
`-2^31`: the first `maxlen` positions of the output do not equal the last
`maxlen` tokens of the input. -/
theorem C5_counterexample :
    pad_3d_sequence false [[[1], [2147483648]]] 1 1 .int32
      = .ok [[[-2147483648]]]
    ∧ ([[(-2147483648 : ℚ)]] : List (List ℚ)) ≠ [[2147483648]] := by
  exact ⟨rfl, by decide⟩

/-- Claim C5 (amended): for any sequence longer than `maxlen`, the first
`maxlen` token positions of the corresponding output row are the last `maxlen`
tokens of the input *cast to the requested dtype* (default int32); they equal
the raw input tokens verbatim whenever that cast fixes them. -/
theorem C5_pre_truncation (dense : Bool) (seqs out : List (List (List ℚ)))
    (maxlen nd : Nat) (dt : DType)
    (hok : pad_3d_sequence dense seqs maxlen nd dt = .ok out)
    (i : Nat) (hi : i < seqs.length)
    (hlong : maxlen < (seqs.getD i []).length) :
    (out.getD i []).take maxlen
      = ((pythonTail maxlen (seqs.getD i [])).map (castVec dt)).take maxlen
    ∧ ((∀ v ∈ seqs.getD i [], castVec dt v = v) →
        (out.getD i []).take maxlen
          = (pythonTail maxlen (seqs.getD i [])).take maxlen) := by
  have hrow := exceptMap_ok_getD _ _ _ hok i hi [] []
  have htake := pad3dRow_take dense maxlen nd dt _ _ hrow hlong
  refine ⟨htake, fun hfix => ?_⟩
  have hmap : (pythonTail maxlen (seqs.getD i [])).map (castVec dt)
      = pythonTail maxlen (seqs.getD i []) := by
    have h2 := List.map_congr_left (f := castVec dt) (g := id)
      (fun v hv => (hfix v (pythonTail_subset maxlen _ hv) : castVec dt v = id v))
    simpa using h2
  rw [htake, hmap]

/-- Claim C5, witness: the amended statement evaluated on the concrete input
`[[[1], [2]]]` with `maxlen = 1`, whose integral small values are fixed by the
int32 cast. -/
theorem C5_witness :
    (([[[2]]] : List (List (List ℚ))).getD 0 []).take 1
      = ((pythonTail 1 (([[[1], [2]]] : List (List (List ℚ))).getD 0 [])).map
          (castVec .int32)).take 1
    ∧ ((∀ v ∈ ([[[1], [2]]] : List (List (List ℚ))).getD 0 [],
          castVec .int32 v = v) →
        (([[[2]]] : List (List (List ℚ))).getD 0 []).take 1
          = (pythonTail 1 (([[[1], [2]]] : List (List (List ℚ))).getD 0 [])).take 1) :=
  C5_pre_truncation false [[[1], [2]]] [[[2]]] 1 1 .int32 rfl 0 (by decide) (by decide)

/-- Claim C6, counterexample: the one-token sequence holding `2^31`, padded to
`maxlen = 2`, is stored int32-wrapped: the output row is not the input
left-aligned with trailing zeros. -/
theorem C6_counterexample :
    pad_3d_sequence false [[[2147483648]]] 2 1 .int32
      = .ok [[[-2147483648], [0]]]
    ∧ ([[(-2147483648 : ℚ)], [0]] : List (List ℚ)) ≠ [[2147483648], [0]] := by
  exact ⟨rfl, by decide⟩

/-- Claim C6 (amended): on every successful call the output tensor has shape
exactly `(len(seqs), maxlen, nd)`; the row of a sequence shorter than `maxlen`
is the sequence *cast to the requested dtype* (default int32), left-aligned
and followed by zero vectors — verbatim the input sequence whenever the cast
fixes its values. -/
theorem C6_left_aligned (dense : Bool) (seqs out : List (List (List ℚ)))
    (maxlen nd : Nat) (dt : DType)
    (hok : pad_3d_sequence dense seqs maxlen nd dt = .ok out) :
    out.length = seqs.length
    ∧ (∀ r ∈ out, r.length = maxlen ∧ ∀ v ∈ r, v.length = nd)
    ∧ ∀ i, i < seqs.length → (seqs.getD i []).length < maxlen →
        (out.getD i [] = (seqs.getD i []).map (castVec dt)
            ++ List.replicate (maxlen - (seqs.getD i []).length) (List.replicate nd 0)
        ∧ ((∀ v ∈ seqs.getD i [], castVec dt v = v) →
            out.getD i [] = seqs.getD i []
              ++ List.replicate (maxlen - (seqs.getD i []).length)
                  (List.replicate nd 0))) := by
  refine ⟨exceptMap_ok_length _ _ _ hok, ?_, ?_⟩
  · intro r hr
    obtain ⟨a, _, hfa⟩ := exceptMap_ok_mem_right _ _ _ hok r hr
    exact pad3dRow_ok_shape dense maxlen nd dt a r hfa
  · intro i hi hshort
    have hrow := exceptMap_ok_getD _ _ _ hok i hi [] []
    have hval := pad3dRow_short dense maxlen nd dt _ _ hrow hshort
    refine ⟨hval, fun hfix => ?_⟩
    have hmap : (seqs.getD i []).map (castVec dt) = seqs.getD i [] := by
      have h2 := List.map_congr_left (f := castVec dt) (g := id)
        (fun v hv => (hfix v hv : castVec dt v = id v))
      simpa using h2
    rw [hval, hmap]

/-- Claim C6, witness: the amended statement evaluated on the concrete input
`[[[7]]]` with `maxlen = 2`, `nd = 1`. -/
theorem C6_witness :
    ([[[7], [0]]] : List (List (List ℚ))).length
        = ([[[7]]] : List (List (List ℚ))).length
    ∧ (∀ r ∈ ([[[7], [0]]] : List (List (List ℚ))), r.length = 2 ∧ ∀ v ∈ r, v.length = 1)
    ∧ ∀ i, i < ([[[7]]] : List (List (List ℚ))).length →
        (([[[7]]] : List (List (List ℚ))).getD i []).length < 2 →
        ((([[[7], [0]]] : List (List (List ℚ))).getD i []
            = (([[[7]]] : List (List (List ℚ))).getD i []).map (castVec .int32)
              ++ List.replicate (2 - (([[[7]]] : List (List (List ℚ))).getD i []).length)
                  (List.replicate 1 0)
        ∧ ((∀ v ∈ ([[[7]]] : List (List (List ℚ))).getD i [], castVec .int32 v = v) →
            ([[[7], [0]]] : List (List (List ℚ))).getD i []
              = ([[[7]]] : List (List (List ℚ))).getD i []
                ++ List.replicate (2 - (([[[7]]] : List (List (List ℚ))).getD i []).length)
                    (List.replicate 1 0)))) :=
  C6_left_aligned false [[[7]]] [[[7], [0]]] 2 1 .int32 rfl

/-- Claim C8: on a task where only the training set is loaded (validation and
test graphs unset, i.e. `None`), `eval` returns a 3-tuple whose second and
third components are `None` and whose first component is the populated metrics
mapping computed by the external `eval_ubuntu` collaborator; the unset splits
cause no error. -/
theorem C8_eval_unset_splits {M : Type}
    (evalU : List ℚ → Option PyVal → Option PyVal → String → M)
    (predictScore : Graph → List ℚ) (g : Graph) (trainf valf testf : String) :
    UbuntuTask.eval evalU predictScore (some g) none none trainf valf testf
      = (some (evalU (predictScore g) (dictGet g "s0") (dictGet g "score") trainf),
         none, none)
    ∧ (UbuntuTask.eval evalU predictScore (some g) none none trainf valf testf).1.isSome
        = true :=
  ⟨rfl, rfl⟩

/-- Claim C9: `pad_graph` updates exactly the five keys `si0`, `si1`, `f0`,
`f1` and `score` of the graph dictionary — replacing them with the padded
index matrices, the padded int32 feature tensors and the materialized score
array — and leaves the binding of every other key unchanged. -/
theorem C9_frame (gr gr' : Graph) (s0pad s1pad nd : Nat)
    (h : pad_graph gr s0pad s1pad nd = .ok gr') :
    (∀ k, k ≠ "si0" → k ≠ "si1" → k ≠ "f0" → k ≠ "f1" → k ≠ "score" →
      dictGet gr' k = dictGet gr k)
    ∧ (∃ v w, dictGet gr "si0" = some v ∧ padSequencesV s0pad v = .ok w
        ∧ dictGet gr' "si0" = some w)
    ∧ (∃ v w, dictGet gr "si1" = some v ∧ padSequencesV s1pad v = .ok w
        ∧ dictGet gr' "si1" = some w)
    ∧ (∃ v w, dictGet gr "f0" = some v ∧ pad3dV s0pad nd .int32 v = .ok w
        ∧ dictGet gr' "f0" = some w)
    ∧ (∃ v w, dictGet gr "f1" = some v ∧ pad3dV s1pad nd .int32 v = .ok w
        ∧ dictGet gr' "f1" = some w)
    ∧ (∃ v w, dictGet gr "score" = some v ∧ npArray1V v = .ok w
        ∧ dictGet gr' "score" = some w) := by
  obtain ⟨v0, w0, v1, w1, v2, w2, v3, w3, v4, w4, hv0, hw0, hv1, hw1, hv2, hw2,
    hv3, hw3, hv4, hw4, rfl⟩ := pad_graph_ok_elim gr gr' s0pad s1pad nd h
  refine ⟨?_, ⟨v0, w0, hv0, hw0, ?_⟩, ⟨v1, w1, hv1, hw1, ?_⟩, ⟨v2, w2, hv2, hw2, ?_⟩,
    ⟨v3, w3, hv3, hw3, ?_⟩, ⟨v4, w4, hv4, hw4, ?_⟩⟩
  · intro k h0 h1 h2 h3 h4
    rw [dictGet_dictSet_ne _ _ _ _ h4, dictGet_dictSet_ne _ _ _ _ h3,
        dictGet_dictSet_ne _ _ _ _ h2, dictGet_dictSet_ne _ _ _ _ h1,
        dictGet_dictSet_ne _ _ _ _ h0]
  · rw [dictGet_dictSet_ne _ _ _ _ (by decide), dictGet_dictSet_ne _ _ _ _ (by decide),
        dictGet_dictSet_ne _ _ _ _ (by decide), dictGet_dictSet_ne _ _ _ _ (by decide),
        dictGet_dictSet_self]
  · rw [dictGet_dictSet_ne _ _ _ _ (by decide), dictGet_dictSet_ne _ _ _ _ (by decide),
        dictGet_dictSet_ne _ _ _ _ (by decide), dictGet_dictSet_self]
  · rw [dictGet_dictSet_ne _ _ _ _ (by decide), dictGet_dictSet_ne _ _ _ _ (by decide),
        dictGet_dictSet_self]
  · rw [dictGet_dictSet_ne _ _ _ _ (by decide), dictGet_dictSet_self]
  · rw [dictGet_dictSet_self]

/-- Claim C9, witness: the frame statement evaluated on a concrete one-sample
graph carrying an extra key `s0` that the padding leaves untouched. -/
theorem C9_witness :
    (∀ k, k ≠ "si0" → k ≠ "si1" → k ≠ "f0" → k ≠ "f1" → k ≠ "score" →
      dictGet [("si0", .imat [[3]]), ("si1", .imat [[4]]),
        ("f0", .arr3 .int32 [[[1]]]), ("f1", .arr3 .int32 [[[1]]]),
        ("score", .arr1 [1]), ("s0", .strs [["hi"]])] k
      = dictGet [("si0", .iseqs [[3]]), ("si1", .iseqs [[4]]),
        ("f0", .fseqs [[[1]]]), ("f1", .fseqs [[[1]]]),
        ("score", .fvec [1]), ("s0", .strs [["hi"]])] k)
    ∧ (∃ v w, dictGet [("si0", .iseqs [[3]]), ("si1", .iseqs [[4]]),
        ("f0", .fseqs [[[1]]]), ("f1", .fseqs [[[1]]]),
        ("score", .fvec [1]), ("s0", .strs [["hi"]])] "si0" = some v
        ∧ padSequencesV 1 v = .ok w
        ∧ dictGet [("si0", .imat [[3]]), ("si1", .imat [[4]]),
            ("f0", .arr3 .int32 [[[1]]]), ("f1", .arr3 .int32 [[[1]]]),
            ("score", .arr1 [1]), ("s0", .strs [["hi"]])] "si0" = some w)
    ∧ (∃ v w, dictGet [("si0", .iseqs [[3]]), ("si1", .iseqs [[4]]),
        ("f0", .fseqs [[[1]]]), ("f1", .fseqs [[[1]]]),
        ("score", .fvec [1]), ("s0", .strs [["hi"]])] "si1" = some v
        ∧ padSequencesV 1 v = .ok w
        ∧ dictGet [("si0", .imat [[3]]), ("si1", .imat [[4]]),
            ("f0", .arr3 .int32 [[[1]]]), ("f1", .arr3 .int32 [[[1]]]),
            ("score", .arr1 [1]), ("s0", .strs [["hi"]])] "si1" = some w)
    ∧ (∃ v w, dictGet [("si0", .iseqs [[3]]), ("si1", .iseqs [[4]]),
        ("f0", .fseqs [[[1]]]), ("f1", .fseqs [[[1]]]),
        ("score", .fvec [1]), ("s0", .strs [["hi"]])] "f0" = some v
        ∧ pad3dV 1 1 .int32 v = .ok w
        ∧ dictGet [("si0", .imat [[3]]), ("si1", .imat [[4]]),
            ("f0", .arr3 .int32 [[[1]]]), ("f1", .arr3 .int32 [[[1]]]),
            ("score", .arr1 [1]), ("s0", .strs [["hi"]])] "f0" = some w)
    ∧ (∃ v w, dictGet [("si0", .iseqs [[3]]), ("si1", .iseqs [[4]]),
        ("f0", .fseqs [[[1]]]), ("f1", .fseqs [[[1]]]),
        ("score", .fvec [1]), ("s0", .strs [["hi"]])] "f1" = some v
        ∧ pad3dV 1 1 .int32 v = .ok w
        ∧ dictGet [("si0", .imat [[3]]), ("si1", .imat [[4]]),
            ("f0", .arr3 .int32 [[[1]]]), ("f1", .arr3 .int32 [[[1]]]),
            ("score", .arr1 [1]), ("s0", .strs [["hi"]])] "f1" = some w)
    ∧ (∃ v w, dictGet [("si0", .iseqs [[3]]), ("si1", .iseqs [[4]]),
        ("f0", .fseqs [[[1]]]), ("f1", .fseqs [[[1]]]),
        ("score", .fvec [1]), ("s0", .strs [["hi"]])] "score" = some v
        ∧ npArray1V v = .ok w
        ∧ dictGet [("si0", .imat [[3]]), ("si1", .imat [[4]]),
            ("f0", .arr3 .int32 [[[1]]]), ("f1", .arr3 .int32 [[[1]]]),
            ("score", .arr1 [1]), ("s0", .strs [["hi"]])] "score" = some w) :=
  C9_frame
    [("si0", .iseqs [[3]]), ("si1", .iseqs [[4]]), ("f0", .fseqs [[[1]]]),
     ("f1", .fseqs [[[1]]]), ("score", .fvec [1]), ("s0", .strs [["hi"]])]
    [("si0", .imat [[3]]), ("si1", .imat [[4]]), ("f0", .arr3 .int32 [[[1]]]),
     ("f1", .arr3 .int32 [[[1]]]), ("score", .arr1 [1]), ("s0", .strs [["hi"]])]
    1 1 1 rfl

/-- Claim C10: `pad_graph` is idempotent — if `pad_graph(gr, s0pad, s1pad)`
produces the padded graph `gr'`, running `pad_graph` again on `gr'` with the
same pad lengths succeeds and leaves `gr'` unchanged: already-padded rows have
exactly the target length, so they are neither truncated nor extended, and the
int32 casts and score materialization fix their own outputs. -/
theorem C10_pad_graph_idem (gr gr' : Graph) (s0pad s1pad nd : Nat)
    (h : pad_graph gr s0pad s1pad nd = .ok gr') :
    pad_graph gr' s0pad s1pad nd = .ok gr' := by
  obtain ⟨v0, w0, v1, w1, v2, w2, v3, w3, v4, w4, hv0, hw0, hv1, hw1, hv2, hw2,
    hv3, hw3, hv4, hw4, hchain⟩ := pad_graph_ok_elim gr gr' s0pad s1pad nd h
  have hg0 : dictGet gr' "si0" = some w0 := by
    rw [hchain, dictGet_dictSet_ne _ _ _ _ (by decide),
        dictGet_dictSet_ne _ _ _ _ (by decide), dictGet_dictSet_ne _ _ _ _ (by decide),
        dictGet_dictSet_ne _ _ _ _ (by decide), dictGet_dictSet_self]
  have hg1 : dictGet gr' "si1" = some w1 := by
    rw [hchain, dictGet_dictSet_ne _ _ _ _ (by decide),
        dictGet_dictSet_ne _ _ _ _ (by decide), dictGet_dictSet_ne _ _ _ _ (by decide),
        dictGet_dictSet_self]
  have hg2 : dictGet gr' "f0" = some w2 := by
    rw [hchain, dictGet_dictSet_ne _ _ _ _ (by decide),
        dictGet_dictSet_ne _ _ _ _ (by decide), dictGet_dictSet_self]
  have hg3 : dictGet gr' "f1" = some w3 := by
    rw [hchain, dictGet_dictSet_ne _ _ _ _ (by decide), dictGet_dictSet_self]
  have hg4 : dictGet gr' "score" = some w4 := by
    rw [hchain, dictGet_dictSet_self]
  have e0 : getPad gr' "si0" (padSequencesV s0pad) = .ok gr' := by
    rw [getPad_ok_iff]
    exact ⟨w0, w0, hg0, padSequencesV_idem _ _ _ hw0,
      (dictSet_eq_of_get _ _ _ hg0).symm⟩
  have e1 : getPad gr' "si1" (padSequencesV s1pad) = .ok gr' := by
    rw [getPad_ok_iff]
    exact ⟨w1, w1, hg1, padSequencesV_idem _ _ _ hw1,
      (dictSet_eq_of_get _ _ _ hg1).symm⟩
  have e2 : getPad gr' "f0" (pad3dV s0pad nd .int32) = .ok gr' := by
    rw [getPad_ok_iff]
    exact ⟨w2, w2, hg2, pad3dV_idem _ _ _ _ hw2, (dictSet_eq_of_get _ _ _ hg2).symm⟩
  have e3 : getPad gr' "f1" (pad3dV s1pad nd .int32) = .ok gr' := by
    rw [getPad_ok_iff]
    exact ⟨w3, w3, hg3, pad3dV_idem _ _ _ _ hw3, (dictSet_eq_of_get _ _ _ hg3).symm⟩
  have e4 : getPad gr' "score" npArray1V = .ok gr' := by
    rw [getPad_ok_iff]
    exact ⟨w4, w4, hg4, npArray1V_idem _ _ hw4, (dictSet_eq_of_get _ _ _ hg4).symm⟩
  unfold pad_graph
  rw [e0]
  simp only [Except.bind]
  rw [e1]
  simp only [Except.bind]
  rw [e2]
  simp only [Except.bind]
  rw [e3]
  simp only [Except.bind]
  exact e4

/-- Claim C10, witness: idempotence evaluated on a concrete one-sample graph. -/
theorem C10_witness :
    pad_graph [("si0", .imat [[3]]), ("si1", .imat [[4]]),
      ("f0", .arr3 .int32 [[[1]]]), ("f1", .arr3 .int32 [[[1]]]),
      ("score", .arr1 [1])] 1 1 1
      = .ok [("si0", .imat [[3]]), ("si1", .imat [[4]]),
        ("f0", .arr3 .int32 [[[1]]]), ("f1", .arr3 .int32 [[[1]]]),
        ("score", .arr1 [1])] :=
  C10_pad_graph_idem
    [("si0", .iseqs [[3]]), ("si1", .iseqs [[4]]), ("f0", .fseqs [[[1]]]),
     ("f1", .fseqs [[[1]]]), ("score", .fvec [1])]
    [("si0", .imat [[3]]), ("si1", .imat [[4]]), ("f0", .arr3 .int32 [[[1]]]),
     ("f1", .arr3 .int32 [[[1]]]), ("score", .arr1 [1])]
    1 1 1 rfl

theorem listSlice_getD (a b j : Nat) (l : List α) (d : α) (hj : j < b - a) :
    (listSlice a b l).getD j d = l.getD (a + j) d := by
  unfold listSlice
  rw [List.getD_eq_getElem?_getD, List.getElem?_take, if_pos hj, List.getElem?_drop,
      List.getD_eq_getElem?_getD]

theorem pad_graph_ok_si0 (g g' : Graph) (s0pad s1pad nd : Nat)
    (h : pad_graph g s0pad s1pad nd = .ok g') :
    ∃ v w, dictGet g "si0" = some v ∧ padSequencesV s0pad v = .ok w
      ∧ dictGet g' "si0" = some w := by
  obtain ⟨v0, w0, v1, w1, v2, w2, v3, w3, v4, w4, hv0, hw0, _, _, _, _, _, _, _, _,
    rfl⟩ := pad_graph_ok_elim g g' s0pad s1pad nd h
  refine ⟨v0, w0, hv0, hw0, ?_⟩
  rw [dictGet_dictSet_ne _ _ _ _ (by decide), dictGet_dictSet_ne _ _ _ _ (by decide),
      dictGet_dictSet_ne _ _ _ _ (by decide), dictGet_dictSet_ne _ _ _ _ (by decide),
      dictGet_dictSet_self]

theorem block_le_length (rows : List α) (batchSize i : Nat)
    (hi : i < rows.length / batchSize) :
    (i + 1) * batchSize ≤ rows.length := by
  have h1 : (i + 1) * batchSize ≤ (rows.length / batchSize) * batchSize :=
    Nat.mul_le_mul_right batchSize hi
  have h2 := Nat.div_mul_le_self rows.length batchSize
  omega

theorem length_flatMap_perms (perms : Nat → List Nat) (nb : Nat)
    (h : ∀ j, (perms j).length = nb) (e : Nat) :
    ((List.range e).flatMap perms).length = e * nb := by
  induction e with
  | zero => simp
  | succ n ih =>
    rw [List.range_succ, List.flatMap_append, List.length_append, ih]
    have : ([n].flatMap perms).length = nb := by simp [h n]
    rw [this, Nat.succ_mul]

/-- Claim C4: a `once=True` pass of `sample_pairs` yields exactly
`floor(N / batch_size)` batches; each block is the contiguous index slice
`[i*batch_size, (i+1)*batch_size)` of the dataset, of exactly `batch_size`
samples; the partition into blocks does not depend on the shuffle (two passes
yield permutations of the same batch list); and every sample index that is
ever yielded is below `floor(N/batch_size) * batch_size`, so the trailing
`N mod batch_size` samples are never yielded. -/
theorem C4_once_partition (gr : Graph) (rows : List (List Int))
    (batchSize s0pad s1pad nd : Nat)
    (perm perm' : List Nat) (batches batches' : List Graph)
    (hrows : dictGet gr "si0" = some (.iseqs rows))
    (hbs : 0 < batchSize)
    (hperm : perm.Perm (List.range (rows.length / batchSize)))
    (hperm' : perm'.Perm (List.range (rows.length / batchSize)))
    (hrun : sample_pairs_once gr batchSize s0pad s1pad nd perm = .ok batches)
    (hrun' : sample_pairs_once gr batchSize s0pad s1pad nd perm' = .ok batches') :
    batches.length = rows.length / batchSize
    ∧ numBatches gr batchSize = rows.length / batchSize
    ∧ (∀ i ∈ perm,
        (listSlice (i * batchSize) ((i + 1) * batchSize) rows).length = batchSize)
    ∧ (∀ i ∈ perm, ∀ j, j < batchSize →
        (listSlice (i * batchSize) ((i + 1) * batchSize) rows).getD j []
          = rows.getD (i * batchSize + j) [])
    ∧ (∀ b ∈ batches, ∃ w, dictGet b "si0" = some w ∧ pyLen w = batchSize)
    ∧ batches.Perm batches'
    ∧ (∀ i ∈ perm, ∀ j, j < batchSize →
        i * batchSize + j < (rows.length / batchSize) * batchSize)
    ∧ (rows.length / batchSize) * batchSize ≤ rows.length := by
  have hmem : ∀ i ∈ perm, i < rows.length / batchSize := by
    intro i hi
    have := hperm.mem_iff.mp hi
    simpa using this
  have hblock : ∀ i ∈ perm, (i + 1) * batchSize ≤ rows.length := fun i hi =>
    block_le_length rows batchSize i (hmem i hi)
  have hsub : ∀ i : Nat, (i + 1) * batchSize - i * batchSize = batchSize := by
    intro i
    rw [Nat.succ_mul]
    omega
  refine ⟨?_, ?_, ?_, ?_, ?_, ?_, ?_, Nat.div_mul_le_self rows.length batchSize⟩
  · rw [exceptMap_ok_length _ _ _ hrun, hperm.length_eq, List.length_range]
  · unfold numBatches
    rw [hrows]
    rfl
  · intro i hi
    rw [listSlice_length, hsub i]
    have := hblock i hi
    have h3 : batchSize ≤ rows.length - i * batchSize := by
      rw [Nat.succ_mul] at this
      omega
    omega
  · intro i hi j hj
    exact listSlice_getD _ _ _ _ _ (by rw [hsub i]; exact hj)
  · intro b hb
    obtain ⟨i, hip, hfb⟩ := exceptMap_ok_mem_right _ _ _ hrun b hb
    obtain ⟨v, w, hv, hw, hbw⟩ := pad_graph_ok_si0 _ _ _ _ _ hfb
    rw [dictGet_graph_input_slice, hrows] at hv
    simp only [Option.map] at hv
    refine ⟨w, hbw, ?_⟩
    rw [padSequencesV_pyLen _ _ _ hw, ← Option.some.inj hv]
    simp only [pyValSlice, pyLen]
    rw [listSlice_length, hsub i]
    have := hblock i hip
    rw [Nat.succ_mul] at this
    omega
  · have hb1 := exceptMap_ok_eq_map _ _ _ ([] : Graph) hrun
    have hb2 := exceptMap_ok_eq_map _ _ _ ([] : Graph) hrun'
    rw [hb1, hb2]
    exact (hperm.trans hperm'.symm).map _
  · intro i hi j hj
    have h1 := hmem i hi
    have h2 : (i + 1) * batchSize ≤ (rows.length / batchSize) * batchSize :=
      Nat.mul_le_mul_right batchSize h1
    rw [Nat.succ_mul] at h2
    omega

/-- Claim C4, witness: the partition statement evaluated on the spec's worked
example — 5 samples, `batch_size = 2`, two shuffles `[1, 0]` and `[0, 1]`:
exactly 2 batches of 2 samples each, the same two blocks in both passes, and
every yielded sample index is below `2 * 2 = 4` (sample 4 is excluded). -/
theorem C4_witness :
    ([exBatch1, exBatch0] : List Graph).length = exRows5.length / 2
    ∧ numBatches exGraph5 2 = exRows5.length / 2
    ∧ (∀ i ∈ ([1, 0] : List Nat),
        (listSlice (i * 2) ((i + 1) * 2) exRows5).length = 2)
    ∧ (∀ i ∈ ([1, 0] : List Nat), ∀ j, j < 2 →
        (listSlice (i * 2) ((i + 1) * 2) exRows5).getD j []
          = exRows5.getD (i * 2 + j) [])
    ∧ (∀ b ∈ ([exBatch1, exBatch0] : List Graph),
        ∃ w, dictGet b "si0" = some w ∧ pyLen w = 2)
    ∧ ([exBatch1, exBatch0] : List Graph).Perm [exBatch0, exBatch1]
    ∧ (∀ i ∈ ([1, 0] : List Nat), ∀ j, j < 2 →
        i * 2 + j < exRows5.length / 2 * 2)
    ∧ exRows5.length / 2 * 2 ≤ exRows5.length :=
  C4_once_partition exGraph5 exRows5 2 1 1 1 [1, 0] [0, 1]
    [exBatch1, exBatch0] [exBatch0, exBatch1]
    rfl (by decide) (by decide) (by decide) rfl rfl

/-- Claim C7: on a dataset with at least `batch_size` samples the
`once=False` generator is inexhaustible — for every `n`, running `n` epochs
succeeds and yields at least `n` batches — while with `once=True` the
generator stops after exactly one shuffled pass over the
`floor(N/batch_size)` blocks. -/
theorem C7_generator (gr : Graph) (rows : List (List Int))
    (batchSize s0pad s1pad nd : Nat) (perms : Nat → List Nat)
    (hrows : dictGet gr "si0" = some (.iseqs rows))
    (hbs : 0 < batchSize) (hge : batchSize ≤ rows.length)
    (hperms : ∀ j, (perms j).Perm (List.range (rows.length / batchSize)))
    (hpad : ∀ i, i < rows.length / batchSize →
      ∃ b, pad_graph (graph_input_slice gr (i * batchSize) ((i + 1) * batchSize))
        s0pad s1pad nd = .ok b) :
    numBatches gr batchSize = rows.length / batchSize
    ∧ (∀ n, ∃ e ys, sample_pairs_epochs gr batchSize s0pad s1pad nd perms e = .ok ys
        ∧ n ≤ ys.length)
    ∧ ∀ perm ys, perm.Perm (List.range (rows.length / batchSize)) →
        sample_pairs_once gr batchSize s0pad s1pad nd perm = .ok ys →
        ys.length = rows.length / batchSize := by
  have hnb : 1 ≤ rows.length / batchSize := (Nat.one_le_div_iff hbs).mpr hge
  refine ⟨?_, ?_, ?_⟩
  · unfold numBatches
    rw [hrows]
    rfl
  · intro n
    have hall : ∀ i ∈ (List.range n).flatMap perms,
        ∃ b, pad_graph (graph_input_slice gr (i * batchSize) ((i + 1) * batchSize))
          s0pad s1pad nd = .ok b := by
      intro i hi
      obtain ⟨j, _, hij⟩ := List.mem_flatMap.mp hi
      have hmem := (hperms j).mem_iff.mp hij
      exact hpad i (by simpa using hmem)
    obtain ⟨ys, hys, hlen⟩ := exceptMap_ok_of_forall _ _ hall
    refine ⟨n, ys, hys, ?_⟩
    rw [hlen, length_flatMap_perms perms (rows.length / batchSize)
      (fun j => (hperms j).length_eq.trans (List.length_range _)) n]
    calc n = n * 1 := (Nat.mul_one n).symm
      _ ≤ n * (rows.length / batchSize) := Nat.mul_le_mul_left n hnb
  · intro perm ys hp hys
    rw [exceptMap_ok_length _ _ _ hys, hp.length_eq, List.length_range]

/-- Claim C7, witness: the generator statement evaluated on a concrete
one-sample dataset with `batch_size = 1` and the constant shuffle. -/
theorem C7_witness :
    numBatches exGraph1 1 = exRows1.length / 1
    ∧ (∀ n, ∃ e ys, sample_pairs_epochs exGraph1 1 1 1 1 (fun _ => [0]) e = .ok ys
        ∧ n ≤ ys.length)
    ∧ ∀ perm ys, perm.Perm (List.range (exRows1.length / 1)) →
        sample_pairs_once exGraph1 1 1 1 1 perm = .ok ys →
        ys.length = exRows1.length / 1 :=
  C7_generator exGraph1 exRows1 1 1 1 1 (fun _ => [0]) rfl (by decide) (by decide)
    (fun _ => by
      show ([0] : List Nat).Perm (List.range (exRows1.length / 1))
      decide)
    (fun i hi => by
      have h1 : i < 1 := by simpa [exRows1] using hi
      have h0 : i = 0 := by omega
      subst h0
      exact ⟨exBatchG1, rfl⟩)
